import Mathlib

/-
  Verification development for the plux-rs plugin runtime core.

  The definitions below are a shallow embedding of the Rust sources:
  strings are modelled as List Char (the code only manipulates them
  structurally), semver versions as an explicit record (the external
  semver crate is modelled at the level of its documented behaviour:
  version rendering, parsing of M.m.p with optional prerelease/build,
  and ordering), and semver version requirements (VersionReq) as opaque
  boolean predicates on versions, since the engine only ever calls
  VersionReq::matches.

  Manager hook calls (external trait objects) are modelled as black-box
  outcomes carried on the plugin record: a Bool telling whether the hook
  returns Ok, plus, for the load hook, the list of request functions it
  successfully registers through LoadPluginContext::register_request.
-/

set_option autoImplicit false

namespace Plux

/-! ## Decimal digits: rendering and parsing of natural numbers -/

/-- Little-endian base-10 digit list of a number, with explicit fuel
(the fuel only needs to dominate the number itself). -/
def digsRev (fuel n : Nat) : List Nat :=
  match fuel with
  | 0 => []
  | Nat.succ f => if n = 0 then [] else (n % 10) :: digsRev f (n / 10)

/-- Value of a little-endian base-10 digit list. -/
def digitsVal (l : List Nat) : Nat :=
  l.foldr (fun d acc => d + 10 * acc) 0

/-- Decimal rendering of a natural number, as the Rust Display for
integers produces it. -/
def natRender (n : Nat) : List Char :=
  if n = 0 then [Nat.digitChar 0] else ((digsRev n n).map Nat.digitChar).reverse

/-- Numeric value of a digit character. -/
def digitVal (c : Char) : Nat := c.toNat - 48

/-- Value of a big-endian digit character list (the way a decimal
numeral is read left to right). -/
def parseNatChars (l : List Char) : Nat :=
  l.foldl (fun acc c => 10 * acc + digitVal c) 0

/-- Leading-zero test used by the semver numeric-identifier grammar:
a numeral of length at least two must not start with the zero digit. -/
def noLeadZero : List Char → Bool
  | c :: _ :: _ => c != Nat.digitChar 0
  | _ => true

/-- A well-formed semver numeric identifier: non-empty, all digits,
no leading zero. -/
def checkNum (l : List Char) : Bool :=
  !l.isEmpty && l.all Char.isDigit && noLeadZero l

/-! ## Semantic versions (model of the external semver crate's Version) -/

/-- A semantic version: major.minor.patch with optional prerelease and
build metadata (empty list meaning absent), as in the semver crate. -/
structure SemVer where
  major : Nat
  minor : Nat
  patch : Nat
  pre : List Char
  build : List Char
  deriving DecidableEq, Repr

/-- A character allowed in a semver prerelease or build identifier. -/
def isIdentChar (c : Char) : Bool := c.isAlphanum || c == Char.ofNat 45

/-- One dot-separated identifier segment; when zeroRule is set, an
all-numeric segment must not have a leading zero (prerelease rule). -/
def checkSeg (zeroRule : Bool) (seg : List Char) : Bool :=
  match seg with
  | [] => false
  | c :: rest =>
    seg.all isIdentChar &&
      (!zeroRule || !(seg.all Char.isDigit) || rest.isEmpty || !(c == Nat.digitChar 0))

/-- Validity of a dot-separated identifier list. -/
def checkIdents (zeroRule : Bool) (l : List Char) : Bool :=
  (l.splitOn ('.' : Char)).all (checkSeg zeroRule)

/-- Validity of a semver prerelease string. -/
def checkPre (l : List Char) : Bool := checkIdents true l

/-- Validity of a semver build-metadata string. -/
def checkBuild (l : List Char) : Bool := checkIdents false l

/-- Textual rendering of a version, as the semver crate's Display
produces it. -/
def SemVer.render (v : SemVer) : List Char :=
  natRender v.major ++ ('.' : Char) ::
    (natRender v.minor ++ ('.' : Char) ::
      (natRender v.patch ++ (if v.pre.isEmpty then [] else ('-' : Char) :: v.pre) ++
        (if v.build.isEmpty then [] else ('+' : Char) :: v.build)))

/-- Continuation of version parsing once major, minor and patch have
been read: the remainder is empty, or a dash followed by the prerelease
(which extends up to a plus sign) and optionally a plus sign followed by
the build metadata, or directly a plus sign and the build metadata. -/
def parseTail (M m p : Nat) (r₅ : List Char) : Option SemVer :=
  match r₅ with
  | [] => some ⟨M, m, p, [], []⟩
  | ('-' : Char) :: r₆ =>
    let preS := r₆.takeWhile (fun c => !(c == ('+' : Char)))
    match r₆.dropWhile (fun c => !(c == ('+' : Char))) with
    | [] => if checkPre preS then some ⟨M, m, p, preS, []⟩ else none
    | _ :: buildS =>
      if checkPre preS && checkBuild buildS then some ⟨M, m, p, preS, buildS⟩ else none
  | ('+' : Char) :: r₆ => if checkBuild r₆ then some ⟨M, m, p, [], r₆⟩ else none
  | _ => none

/-- Parsing of a version string, modelling semver's Version::parse:
digits, a dot, digits, a dot, digits, then the prerelease/build tail;
numeric components reject leading zeros. -/
def parseVer (l : List Char) : Option SemVer :=
  let majS := l.takeWhile Char.isDigit
  if checkNum majS then
    match l.dropWhile Char.isDigit with
    | ('.' : Char) :: r₂ =>
      let minS := r₂.takeWhile Char.isDigit
      if checkNum minS then
        match r₂.dropWhile Char.isDigit with
        | ('.' : Char) :: r₄ =>
          let patS := r₄.takeWhile Char.isDigit
          if checkNum patS then
            parseTail (parseNatChars majS) (parseNatChars minS) (parseNatChars patS)
              (r₄.dropWhile Char.isDigit)
          else none
        | _ => none
      else none
    | _ => none
  else none

/-- A SemVer value that the semver crate could actually hold: its
prerelease and build strings satisfy the crate's identifier grammar
(Prerelease and BuildMetadata are validated on construction), and in
particular the prerelease contains no plus sign. -/
def SemVer.Valid (v : SemVer) : Prop :=
  (v.pre = [] ∨ (checkPre v.pre = true ∧ ('+' : Char) ∉ v.pre)) ∧
    (v.build = [] ∨ checkBuild v.build = true)

/-! ## Version ordering (model of the semver crate's Ord for Version) -/

/-- Lexicographic (code-point) order on character lists. -/
def lexLt : List Char → List Char → Bool
  | [], [] => false
  | [], _ :: _ => true
  | _ :: _, [] => false
  | a :: as, b :: bs => if a == b then lexLt as bs else decide (a < b)

/-- Semver order on one identifier segment: numeric identifiers compare
numerically and are lower than alphanumeric ones, which compare
lexically. -/
def segLt (a b : List Char) : Bool :=
  match a.all Char.isDigit, b.all Char.isDigit with
  | true, true => decide (parseNatChars a < parseNatChars b)
  | true, false => true
  | false, true => false
  | false, false => lexLt a b

/-- Semver order on dot-separated identifier lists: segmentwise, with a
strict prefix ranking lower. -/
def segsLt : List (List Char) → List (List Char) → Bool
  | [], [] => false
  | [], _ :: _ => true
  | _ :: _, [] => false
  | s :: ss, t :: ts => if s == t then segsLt ss ts else segLt s t

/-- Strict order on versions, as the semver crate's Ord for Version:
major, minor, patch numerically; a version with a prerelease precedes
the same core version without one; prereleases compare per identifier;
equal precedence falls back to the build metadata as a tie-breaker. -/
def SemVer.ltb (a b : SemVer) : Bool :=
  if a.major ≠ b.major then decide (a.major < b.major)
  else if a.minor ≠ b.minor then decide (a.minor < b.minor)
  else if a.patch ≠ b.patch then decide (a.patch < b.patch)
  else if a.pre == b.pre then
    (if a.build == b.build then false
     else if a.build.isEmpty then true
     else if b.build.isEmpty then false
     else segsLt (a.build.splitOn ('.' : Char)) (b.build.splitOn ('.' : Char)))
  else if a.pre.isEmpty then false
  else if b.pre.isEmpty then true
  else segsLt (a.pre.splitOn ('.' : Char)) (b.pre.splitOn ('.' : Char))

/-! ## Bundle and Depend (src/bundle.rs, src/info.rs) -/

/-- Errors of Bundle::from_filename (utils/error.rs, BundleFromError);
the ParseVersion variant's semver payload is not modelled. -/
inductive BundleFromError where
  | OsStrToStrFailed
  | IDFailed
  | VersionFailed
  | FormatFailed
  | ParseVersion
  deriving DecidableEq, Repr

/-- A plugin bundle: id, semantic version and format (src/bundle.rs). -/
structure Bundle where
  id : List Char
  version : SemVer
  format : List Char
  deriving DecidableEq, Repr

/-- A dependency: target plugin id plus a semver range. The range
(semver's VersionReq) is modelled opaquely as the boolean predicate on
versions that its matches method computes, since the engine only ever
calls matches. -/
structure Depend where
  id : List Char
  version : SemVer → Bool

/-- The PartialEq of Depend against Bundle (src/info.rs): equal ids and
the range admits the bundle's version. -/
def dependMatchesBundle (d : Depend) (b : Bundle) : Bool :=
  d.id == b.id && d.version b.version

/-- Canonical textual form of a bundle (the Display impl in
src/bundle.rs): id, a dash, a v, the version, a dot, the format. -/
def Bundle.render (b : Bundle) : List Char :=
  b.id ++ ('-' : Char) :: ('v' : Char) :: (b.version.render ++ ('.' : Char) :: b.format)

/-- Is the first list a prefix of the second. -/
def isPre : List Char → List Char → Bool
  | [], _ => true
  | _ :: _, [] => false
  | a :: as, b :: bs => a == b && isPre as bs

/-- Byte index of the last occurrence of pat, as Rust's str::rfind
(positions are character positions here; the parsing logic slices at
the same positions it finds, so the embedding is index-consistent). -/
def rfindStr (pat : List Char) : List Char → Option Nat
  | [] => none
  | c :: rest =>
    match rfindStr pat rest with
    | some i => some (i + 1)
    | none => if isPre pat (c :: rest) then some 0 else none

/-- Bundle::from_filename (src/bundle.rs): drain everything after the
last dot as the format; of the remainder, drain from after the last
dash-v up to (excluding) the final character as the version; drain
everything before the last remaining dash-v as the id; check the three
parts non-empty and parse the version. -/
def Bundle.fromFilename (s : List Char) : Except BundleFromError Bundle :=
  match rfindStr [('.' : Char)] s with
  | none => .error .FormatFailed
  | some dp =>
    let format := s.drop (dp + 1)
    let path₁ := s.take (dp + 1)
    match rfindStr [('-' : Char), ('v' : Char)] path₁ with
    | none => .error .VersionFailed
    | some vp =>
      let version := (path₁.take (path₁.length - 1)).drop (vp + 2)
      let path₂ := path₁.take (vp + 2) ++ path₁.drop (path₁.length - 1)
      match rfindStr [('-' : Char), ('v' : Char)] path₂ with
      | none => .error .IDFailed
      | some ip =>
        let id := path₂.take ip
        if format.isEmpty then .error .FormatFailed
        else if version.isEmpty then .error .VersionFailed
        else if id.isEmpty then .error .IDFailed
        else
          match parseVer version with
          | some v => .ok ⟨id, v, format⟩
          | none => .error .ParseVersion

/-! ## Variable types, function signatures, requests (src/variable, src/function) -/

/-- Signed integer width codes (src/variable/var_type.rs). -/
inductive VariableSignedIntType where
  | I8
  | I16
  | I32
  | I64
  deriving DecidableEq, Repr

/-- Unsigned integer width codes (src/variable/var_type.rs). -/
inductive VariableUnsignedIntType where
  | U8
  | U16
  | U32
  | U64
  deriving DecidableEq, Repr

/-- Integer type codes (src/variable/var_type.rs). -/
inductive VariableIntType where
  | Signed (t : VariableSignedIntType)
  | Unsigned (t : VariableUnsignedIntType)
  deriving DecidableEq, Repr

/-- Float type codes (src/variable/var_type.rs). -/
inductive VariableFloatType where
  | F32
  | F64
  deriving DecidableEq, Repr

/-- Variable type codes used in signatures (src/variable/var_type.rs).
Let is the unspecified/default type; equality is the derived structural
PartialEq of the Rust enum. -/
inductive VariableType where
  | Let
  | Int (t : VariableIntType)
  | Float (t : VariableFloatType)
  | Bool
  | Char
  | String
  | List
  deriving DecidableEq, Repr

/-- A named, typed function argument (src/function/arg.rs). -/
structure Arg where
  name : String
  ty : VariableType
  deriving DecidableEq, Repr

/-- A host-declared request: name, input types, optional output type
(src/function/request.rs). -/
structure Request where
  name : String
  inputs : List VariableType
  output : Option VariableType
  deriving DecidableEq, Repr

/-- A function object (the dyn Function trait in
src/function/function.rs): name, inputs, optional output, and the call
behaviour, polymorphic over the argument and output value types. -/
structure Func (V O : Type) where
  name : String
  inputs : List Arg
  output : Option Arg
  call : List V → O

/-- The PartialEq for dyn Function (src/function/function.rs): equality
of name, inputs and output; the call behaviour is not compared. -/
def funcEq {V O : Type} (f g : Func V O) : Bool :=
  f.name == g.name && f.inputs == g.inputs && f.output == g.output

/-! ## Plugin records and the loader state (src/plugin.rs, src/loader.rs) -/

/-- A plugin record owned by the engine (src/plugin.rs), together with
its PluginInfo fields (path, bundle, declared dependencies) and a
black-box model of its manager's hooks: loadHookOk and loadHookReqs
describe the manager's load_plugin hook (whether it returns Ok, and the
request functions it successfully registers through the load context);
unloadHookOk describes the unload_plugin hook's outcome. -/
structure PluginM (V O : Type) where
  bundle : Bundle
  depends : List Depend
  optionalDepends : List Depend
  path : List Char
  manager : Nat
  isLoad : Bool
  requests : List (Func V O)
  registry : List (Func V O)
  loadHookOk : Bool
  loadHookReqs : List (Func V O)
  unloadHookOk : Bool

/-- Replace the is_load flag of a plugin record. -/
def setLoad {V O : Type} (p : PluginM V O) (b : Bool) : PluginM V O :=
  ⟨p.bundle, p.depends, p.optionalDepends, p.path, p.manager, b,
    p.requests, p.registry, p.loadHookOk, p.loadHookReqs, p.unloadHookOk⟩

/-- Replace the requests table of a plugin record. -/
def setReqTable {V O : Type} (p : PluginM V O) (rs : List (Func V O)) : PluginM V O :=
  ⟨p.bundle, p.depends, p.optionalDepends, p.path, p.manager, p.isLoad,
    rs, p.registry, p.loadHookOk, p.loadHookReqs, p.unloadHookOk⟩

/-- Replace the private registry of a plugin record. -/
def setRegistry {V O : Type} (p : PluginM V O) (rs : List (Func V O)) : PluginM V O :=
  ⟨p.bundle, p.depends, p.optionalDepends, p.path, p.manager, p.isLoad,
    p.requests, rs, p.loadHookOk, p.loadHookReqs, p.unloadHookOk⟩

instance {V O : Type} [Inhabited O] : Inhabited (Func V O) :=
  ⟨⟨"", [], none, fun _ => default⟩⟩

instance {V O : Type} : Inhabited (PluginM V O) :=
  ⟨⟨⟨[], ⟨0, 0, 0, [], []⟩, []⟩, [], [], [], 0, false, [], [], true, [], true⟩⟩

/-- The loader state relevant to the claims: the plugin list and the
registered requests (src/loader.rs, Loader fields plugins and
requests). -/
structure LoaderState (V O : Type) where
  plugins : List (PluginM V O)
  requests : List Request

/-! ## Engine operations -/

/-- Errors of LoadPluginContext::register_request. -/
inductive RegisterRequestError where
  | NotFound
  | ArgumentsIncorrectly
  deriving DecidableEq, Repr

/-- Errors of Plugin::register_function. -/
inductive PluginRegisterFunctionError where
  | AlreadyExists (name : String)
  deriving DecidableEq, Repr

/-- Error of Plugin::call_request and Loader::call_request. -/
inductive PluginCallRequestError where
  | NotFound
  deriving DecidableEq, Repr

/-- Errors of load_plugin (utils/error.rs, LoadPluginError); the
ByManager payload is not modelled. -/
inductive LoadPluginError where
  | NotFound
  | NotFoundDependencies (l : List Depend)
  | LoadDependency (depend : Depend) (error : LoadPluginError)
  | LoadPluginByManager
  | RequestsNotFound (l : List String)

/-- Errors of unload_plugin (utils/error.rs, UnloadPluginError). -/
inductive UnloadPluginError where
  | NotFound
  | CurrentlyUsesDepend (plugin : Bundle) (depend : Bundle)
  | UnloadPluginByManager
  deriving DecidableEq, Repr

/-- The signature check of LoadPluginContext::register_request
(src/context/load_plugin_context.rs): every declared input type of the
request must occur among the function's input types (order-free,
presence per declared entry), and the output types must be equal. -/
def sigChecks {V O : Type} (req : Request) (f : Func V O) : Bool :=
  req.inputs.all (fun input => f.inputs.any (fun arg => input == arg.ty)) &&
    (req.output == f.output.map Arg.ty)

/-- LoadPluginContext::register_request
(src/context/load_plugin_context.rs): find the engine request with the
function's name (else NotFound); check every declared input type occurs
among the function's inputs and the outputs are equal (else
ArgumentsIncorrectly); then push the function onto the plugin's request
table. -/
def registerRequest {V O : Type} (requests : List Request) (plugin : PluginM V O)
    (f : Func V O) : PluginM V O × Option RegisterRequestError :=
  match requests.find? (fun req => req.name == f.name) with
  | some req =>
    if req.inputs.all (fun input => f.inputs.any (fun arg => input == arg.ty)) then
      if req.output == f.output.map Arg.ty then
        (setReqTable plugin (plugin.requests ++ [f]), none)
      else (plugin, some .ArgumentsIncorrectly)
    else (plugin, some .ArgumentsIncorrectly)
  | none => (plugin, some .NotFound)

/-- Plugin::register_function (src/plugin.rs): reject when some
registered function is equal under the dyn Function PartialEq (name,
inputs and output all equal), else append to the private registry. -/
def registerFunction {V O : Type} (plugin : PluginM V O) (f : Func V O) :
    PluginM V O × Option PluginRegisterFunctionError :=
  match plugin.registry.find? (fun g => funcEq g f) with
  | some _ => (plugin, some (.AlreadyExists f.name))
  | none => (setRegistry plugin (plugin.registry ++ [f]), none)

/-- Plugin::call_request (src/plugin.rs): first function in the request
table with the given name is called; none found is NotFound. -/
def pluginCallRequest {V O : Type} (p : PluginM V O) (name : String) (args : List V) :
    Except PluginCallRequestError O :=
  match p.requests.findSome? (fun r => if r.name == name then some (r.call args) else none) with
  | some o => .ok o
  | none => .error .NotFound

/-- Sequential collect of an iterator of results into a result of a
vector: the first error short-circuits. -/
def collectResults {e a : Type} : List (Except e a) → Except e (List a)
  | [] => .ok []
  | .error err :: _ => .error err
  | .ok v :: rest => (collectResults rest).map (fun l => v :: l)

/-- Loader::call_request (src/loader.rs): every plugin not superseded
by a same-id strictly-higher-version plugin is called (the is_load flag
is not consulted), in plugin-list order, and the per-plugin results are
collected. -/
def callRequest {V O : Type} (plugins : List (PluginM V O)) (name : String) (args : List V) :
    Except PluginCallRequestError (List O) :=
  collectResults (plugins.filterMap (fun plugin =>
    if plugins.any (fun pl =>
        pl.bundle.id == plugin.bundle.id && SemVer.ltb plugin.bundle.version pl.bundle.version)
    then none
    else some (pluginCallRequest plugin name args)))

/-- Loader::par_call_request (src/loader.rs): the request tables of the
non-superseded plugins are collected first (in plugin-list order), then
each table is searched for the first function with the given name
(rayon's find_map_first preserves the first-match semantics) and the
results are collected in the same deterministic order. -/
def parCallRequest {V O : Type} (plugins : List (PluginM V O)) (name : String) (args : List V) :
    Except PluginCallRequestError (List O) :=
  let tables := plugins.filterMap (fun plugin =>
    if plugins.any (fun pl =>
        pl.bundle.id == plugin.bundle.id && SemVer.ltb plugin.bundle.version pl.bundle.version)
    then none
    else some plugin.requests)
  collectResults (tables.map (fun reqs =>
    match reqs.findSome? (fun r => if r.name == name then some (r.call args) else none) with
    | some o => .ok o
    | none => .error .NotFound))

/-- private_loader::forced_unload_plugin (src/loader.rs): when loaded,
run the manager's unload hook (failure propagates and leaves the flag
untouched); then clear is_load. -/
def forcedUnloadPlugin {V O : Type} (plugins : List (PluginM V O)) (i : Nat) :
    List (PluginM V O) × Option UnloadPluginError :=
  let subj := plugins.getD i default
  if subj.isLoad then
    if subj.unloadHookOk then (plugins.set i (setLoad subj false), none)
    else (plugins, some .UnloadPluginByManager)
  else (plugins.set i (setLoad subj false), none)

/-- The per-dependent check inside private_loader::unload_plugin
(src/loader.rs): some required or optional Depend of plug matches the
subject's bundle, and no plugin in the list (loaded or not, of any id)
has a version admitted by that Depend's range strictly above the
subject's version. -/
def dependsAsBestMatch {V O : Type} (plugins : List (PluginM V O)) (b : Bundle)
    (plug : PluginM V O) : Bool :=
  (plug.depends ++ plug.optionalDepends).any (fun d =>
    dependMatchesBundle d b &&
      !(plugins.any (fun p => d.version p.bundle.version && SemVer.ltb b.version p.bundle.version)))

/-- private_loader::unload_plugin (src/loader.rs): when the subject is
loaded, fail on the first loaded plugin whose dependencies pass the
dependsAsBestMatch check against the subject's bundle; otherwise (and
when the subject is not loaded) fall through to forced_unload_plugin. -/
def unloadPlugin {V O : Type} (plugins : List (PluginM V O)) (i : Nat) :
    List (PluginM V O) × Option UnloadPluginError :=
  let subj := plugins.getD i default
  if subj.isLoad then
    match plugins.find? (fun plug => plug.isLoad && dependsAsBestMatch plugins subj.bundle plug) with
    | some plug => (plugins, some (.CurrentlyUsesDepend plug.bundle subj.bundle))
    | none => forcedUnloadPlugin plugins i
  else forcedUnloadPlugin plugins i

/-- private_loader::check_requests (src/loader.rs). The Rust code
creates ONE iterator over the plugin's request table and calls any on
it once per engine request: any consumes the iterator up to and
including the first match, and exhausts it on a miss. consumeNamed
models one such any call, returning the remaining iterator on a hit. -/
def consumeNamed {V O : Type} (name : String) : List (Func V O) → Option (List (Func V O))
  | [] => none
  | f :: fs => if f.name == name then some fs else consumeNamed name fs

/-- check_requests proper: fold over the engine requests, threading the
shared iterator; a miss reports the request name and leaves the
iterator exhausted. -/
def checkRequests {V O : Type} (reqs : List Request) (table : List (Func V O)) : List String :=
  match reqs with
  | [] => []
  | req :: rs =>
    match consumeNamed req.name table with
    | some rest => checkRequests rs rest
    | none => req.name :: checkRequests rs ([] : List (Func V O))

/-- private_loader::forced_load_plugin (src/loader.rs): run the
manager's load hook with a LoadPluginContext and Api (hook modelled by
the loadHookOk / loadHookReqs fields: on success the functions it
registers are appended to the request table); on success set is_load.
The resolved-dependency argument only feeds the Api and is unused
here. -/
def forcedLoadPlugin {V O : Type} [Inhabited O] (st : LoaderState V O) (i : Nat)
    (_found : List (Bundle × Bool)) : LoaderState V O × Option LoadPluginError :=
  let p := st.plugins.getD i default
  if p.loadHookOk then
    (⟨st.plugins.set i (setLoad (setReqTable p (p.requests ++ p.loadHookReqs)) true),
      st.requests⟩, none)
  else (st, some .LoadPluginByManager)

/-- The candidate search of private_loader::load_depends
(src/loader.rs): the first plugin (by index) whose bundle matches the
Depend and such that no plugin in the list (of any id) has a version
admitted by the Depend's range strictly above the candidate's. -/
def findDep {V O : Type} (plugins : List (PluginM V O)) (d : Depend) :
    Option (Nat × PluginM V O) :=
  plugins.enum.find? (fun ip =>
    dependMatchesBundle d ip.2.bundle &&
      !(plugins.any (fun p =>
        d.version p.bundle.version && SemVer.ltb ip.2.bundle.version p.bundle.version)))

/-- private_loader::load_depends (src/loader.rs), parametrized by the
recursive load_plugin call: for each (required?, Depend) pair, look up
the best-match candidate; when found, record its bundle and recursively
load it (wrapping failures as LoadDependency); when a required Depend
is not found, accumulate it. -/
def loadDependsAux {V O : Type}
    (loadP : LoaderState V O → Nat → Option (LoaderState V O × Option LoadPluginError)) :
    LoaderState V O → List (Bool × Depend) →
      Option (LoaderState V O × Except LoadPluginError (List (Bundle × Bool) × List Depend))
  | st, [] => some (st, .ok ([], []))
  | st, (isDep, d) :: rest =>
    match findDep st.plugins d with
    | some ip =>
      match loadP st ip.1 with
      | none => none
      | some (st₁, some e) => some (st₁, .error (.LoadDependency d e))
      | some (st₁, none) =>
        match loadDependsAux loadP st₁ rest with
        | none => none
        | some (st₂, .error e) => some (st₂, .error e)
        | some (st₂, .ok (found, notFound)) =>
          some (st₂, .ok ((ip.2.bundle, isDep) :: found, notFound))
    | none =>
      if isDep then
        match loadDependsAux loadP st rest with
        | none => none
        | some (st₂, .error e) => some (st₂, .error e)
        | some (st₂, .ok (found, notFound)) => some (st₂, .ok (found, d :: notFound))
      else loadDependsAux loadP st rest

/-- private_loader::load_plugin (src/loader.rs), with fuel bounding the
recursion depth (the Rust recursion does not terminate on cyclic
dependency graphs; none is returned when the fuel runs out): return Ok
when already loaded; resolve required then optional dependencies; fail
with NotFoundDependencies when required ones are missing; run the
manager hook; then check_requests, resetting is_load and failing with
RequestsNotFound when requests are missing. -/
def loadPluginFuel {V O : Type} [Inhabited O] (fuel : Nat) :
    LoaderState V O → Nat → Option (LoaderState V O × Option LoadPluginError) :=
  match fuel with
  | 0 => fun _ _ => none
  | Nat.succ f => fun st i =>
    let p := st.plugins.getD i default
    if p.isLoad then some (st, none)
    else
      let depIter := p.depends.map (fun d => (true, d)) ++
        p.optionalDepends.map (fun d => (false, d))
      match loadDependsAux (loadPluginFuel f) st depIter with
      | none => none
      | some (st₁, .error e) => some (st₁, some e)
      | some (st₁, .ok (found, notFound)) =>
        if notFound.isEmpty then
          match forcedLoadPlugin st₁ i found with
          | (st₂, some e) => some (st₂, some e)
          | (st₂, none) =>
            let missing := checkRequests st₂.requests ((st₂.plugins.getD i default).requests)
            if missing.isEmpty then some (st₂, none)
            else
              some (⟨st₂.plugins.set i (setLoad (st₂.plugins.getD i default) false),
                st₂.requests⟩, some (.RequestsNotFound missing))
        else some (st₁, some (.NotFoundDependencies notFound))

/-! ## Concrete states used to evaluate the engine operations -/

/-- A plain major.minor.patch version. -/
def verOf (a b c : Nat) : SemVer := ⟨a, b, c, [], []⟩

/-- The caret range carot-one (at least 1.0.0, below 2.0.0) on plain
versions, a concrete instance of the opaque VersionReq model. -/
def caretOne : SemVer → Bool := fun v => decide (1 ≤ v.major ∧ v.major < 2)

/-- The dependency on plugin a with range caretOne. -/
def dependA : Depend := ⟨"a".toList, caretOne⟩

/-- An idle plugin record: no dependencies, empty tables, hooks
succeed, nothing registered by the load hook. -/
def mkPlug (idc : String) (ver : SemVer) (deps : List Depend) (loaded : Bool) :
    PluginM Unit Unit :=
  ⟨⟨idc.toList, ver, "vpl".toList⟩, deps, [], [], 0, loaded, [], [], true, [], true⟩

/-- Plugin a, version 1.0.0, unloaded. -/
def plugA : PluginM Unit Unit := mkPlug "a" (verOf 1 0 0) [] false

/-- Plugin b, version 1.5.0, unloaded; its id differs from a but its
version falls inside the caretOne range. -/
def plugB15 : PluginM Unit Unit := mkPlug "b" (verOf 1 5 0) [] false

/-- Plugin c, version 1.0.0, depending on a through dependA. -/
def plugC : PluginM Unit Unit := mkPlug "c" (verOf 1 0 0) [dependA] false

/-- Loader state with a, b and c registered, nothing loaded. -/
def stC1 : LoaderState Unit Unit := ⟨[plugA, plugB15, plugC], []⟩

/-- The same state without b. -/
def stC1noB : LoaderState Unit Unit := ⟨[plugA, plugC], []⟩

/-- Engine requests named a and b. -/
def reqA : Request := ⟨"a", [], none⟩

/-- Engine request named b. -/
def reqB : Request := ⟨"b", [], none⟩

/-- A request function named a. -/
def funcA : Func Unit Unit := ⟨"a", [], none, fun _ => ()⟩

/-- A request function named b. -/
def funcB : Func Unit Unit := ⟨"b", [], none, fun _ => ()⟩

/-- A plugin whose load hook registers b then a (in that order). -/
def plugD : PluginM Unit Unit :=
  ⟨⟨"d".toList, verOf 1 0 0, "vpl".toList⟩, [], [], [], 0, false, [], [], true,
    [funcB, funcA], true⟩

/-- Loader state with plugin d and requests a, b (in that order). -/
def stC2 : LoaderState Unit Unit := ⟨[plugD], [reqA, reqB]⟩

/-- Plugin a, 1.0.0, loaded. -/
def plugAL : PluginM Unit Unit := mkPlug "a" (verOf 1 0 0) [] true

/-- Plugin b, 1.0.0, loaded, requiring a through dependA. -/
def plugBL : PluginM Unit Unit := mkPlug "b" (verOf 1 0 0) [dependA] true

/-- Plugin c, 1.5.0, loaded; different id, version inside caretOne. -/
def plugCL : PluginM Unit Unit := mkPlug "c" (verOf 1 5 0) [] true

/-- Plugin a, 1.9.0, registered but NOT loaded. -/
def plugA19 : PluginM Unit Unit := mkPlug "a" (verOf 1 9 0) [] false

/-- Plugin set for the unload check: a and its loaded dependent b,
plus the unrelated loaded c at a higher in-range version. -/
def psC3 : List (PluginM Unit Unit) := [plugAL, plugBL, plugCL]

/-- Plugin set for the unload check: a and its loaded dependent b,
plus an unloaded higher in-range version of a itself. -/
def psC3b : List (PluginM Unit Unit) := [plugAL, plugBL, plugA19]

/-- Decidable equality for Except results with decidable components. -/
instance {e a : Type} [DecidableEq e] [DecidableEq a] : DecidableEq (Except e a) := fun x y =>
  match x, y with
  | .error u, .error v =>
    if h : u = v then isTrue (by rw [h]) else isFalse (fun hc => h (Except.error.inj hc))
  | .error _, .ok _ => isFalse (fun hc => Except.noConfusion hc)
  | .ok _, .error _ => isFalse (fun hc => Except.noConfusion hc)
  | .ok u, .ok v =>
    if h : u = v then isTrue (by rw [h]) else isFalse (fun hc => h (Except.ok.inj hc))

/-- A function that some registered engine Request of the same name
accepts under the register_request signature check. -/
def requestCompatible {V O : Type} (requests : List Request) (f : Func V O) : Prop :=
  ∃ req ∈ requests, req.name = f.name ∧ sigChecks req f = true

theorem digitsVal_digsRev (fuel : Nat) : ∀ n : Nat, n ≤ fuel → digitsVal (digsRev fuel n) = n := by
  induction fuel with
  | zero => intro n h; simp [digsRev, digitsVal]; omega
  | succ f ih =>
    intro n h
    by_cases h0 : n = 0
    · simp [digsRev, h0, digitsVal]
    · have hq : n / 10 ≤ f := by
        have := Nat.div_lt_self (Nat.pos_of_ne_zero h0) (by norm_num : (1:Nat) < 10)
        omega
      simp only [digsRev, h0, if_false, digitsVal, List.foldr_cons]
      have := ih (n / 10) hq
      simp only [digitsVal] at this
      rw [this]
      omega

theorem digsRev_lt_ten (fuel : Nat) : ∀ n d : Nat, d ∈ digsRev fuel n → d < 10 := by
  induction fuel with
  | zero => intro n d h; simp [digsRev] at h
  | succ f ih =>
    intro n d h
    by_cases h0 : n = 0
    · simp [digsRev, h0] at h
    · simp only [digsRev, h0, if_false, List.mem_cons] at h
      rcases h with h | h
      · subst h; exact Nat.mod_lt _ (by norm_num)
      · exact ih _ _ h

theorem digitVal_digitChar {d : Nat} (h : d < 10) : digitVal (Nat.digitChar d) = d := by
  interval_cases d <;> rfl

theorem isDigit_digitChar {d : Nat} (h : d < 10) : (Nat.digitChar d).isDigit = true := by
  interval_cases d <;> rfl

theorem digitChar_ne_zero_char {d : Nat} (h : d < 10) (h0 : d ≠ 0) :
    (Nat.digitChar d != Nat.digitChar 0) = true := by
  interval_cases d <;> first | exact absurd rfl h0 | decide

theorem parseNatChars_rev_map (l : List Nat) (h : ∀ d ∈ l, d < 10) :
    parseNatChars ((l.map Nat.digitChar).reverse) = digitsVal l := by
  induction l with
  | nil => rfl
  | cons d ds ih =>
    have hds : ∀ x ∈ ds, x < 10 := fun x hx => h x (List.mem_cons_of_mem _ hx)
    simp only [List.map_cons, List.reverse_cons, parseNatChars, List.foldl_append,
      List.foldl_cons, List.foldl_nil]
    have hd : d < 10 := h d (List.mem_cons_self _ _)
    rw [digitVal_digitChar hd]
    have := ih hds
    simp only [parseNatChars] at this
    rw [this]
    simp only [digitsVal, List.foldr_cons]
    omega

theorem parseNatChars_natRender (n : Nat) : parseNatChars (natRender n) = n := by
  by_cases h0 : n = 0
  · subst h0; rfl
  · simp only [natRender, h0, if_false]
    rw [parseNatChars_rev_map _ (digsRev_lt_ten n n)]
    exact digitsVal_digsRev n n le_rfl

theorem digsRev_ne_nil {fuel n : Nat} (h : n ≠ 0) (hle : n ≤ fuel) : digsRev fuel n ≠ [] := by
  cases fuel with
  | zero => omega
  | succ f => simp [digsRev, h]

theorem digsRev_getLast?_ne_zero (fuel : Nat) :
    ∀ n : Nat, n ≠ 0 → n ≤ fuel → ∀ d : Nat, (digsRev fuel n).getLast? = some d → d ≠ 0 := by
  induction fuel with
  | zero => intro n h hle; omega
  | succ f ih =>
    intro n h hle d hd
    by_cases hq : n / 10 = 0
    · have hn10 : n < 10 := by omega
      have : digsRev (Nat.succ f) n = [n % 10] := by
        simp [digsRev, h, hq]
        cases f with
        | zero => rfl
        | succ g => simp [digsRev]
      rw [this] at hd
      simp at hd
      omega
    · have hrest : digsRev f (n / 10) ≠ [] := by
        apply digsRev_ne_nil hq
        have := Nat.div_lt_self (Nat.pos_of_ne_zero h) (by norm_num : (1:Nat) < 10)
        omega
      have hshape : digsRev (Nat.succ f) n = (n % 10) :: digsRev f (n / 10) := by
        simp [digsRev, h]
      rw [hshape, List.getLast?_cons] at hd
      rcases hlast : (digsRev f (n / 10)).getLast? with _ | e
      · exact absurd (List.getLast?_eq_none_iff.mp hlast) hrest
      · rw [hlast] at hd
        simp at hd
        subst hd
        apply ih (n / 10) hq
        · have := Nat.div_lt_self (Nat.pos_of_ne_zero h) (by norm_num : (1:Nat) < 10)
          omega
        · exact hlast

theorem natRender_ne_nil (n : Nat) : natRender n ≠ [] := by
  by_cases h0 : n = 0
  · subst h0; simp [natRender]
  · simp only [natRender, h0, if_false]
    intro hcon
    have := List.reverse_eq_nil_iff.mp hcon
    have := List.map_eq_nil_iff.mp this
    exact digsRev_ne_nil h0 le_rfl this

theorem natRender_all_digits (n : Nat) : (natRender n).all Char.isDigit = true := by
  by_cases h0 : n = 0
  · subst h0; rfl
  · simp only [natRender, h0, if_false]
    rw [List.all_eq_true]
    intro c hc
    rw [List.mem_reverse, List.mem_map] at hc
    obtain ⟨d, hd, hdc⟩ := hc
    rw [← hdc]
    exact isDigit_digitChar (digsRev_lt_ten n n d hd)

theorem checkNum_natRender (n : Nat) : checkNum (natRender n) = true := by
  by_cases h0 : n = 0
  · subst h0; rfl
  · have hne := natRender_ne_nil n
    have hdig := natRender_all_digits n
    simp only [checkNum, Bool.and_eq_true]
    refine ⟨⟨by simpa [List.isEmpty_iff] using hne, hdig⟩, ?_⟩
    rcases hsh : natRender n with _ | ⟨c, rest⟩
    · exact absurd hsh hne
    · rcases rest with _ | ⟨c2, rest2⟩
      · rfl
      · simp only [noLeadZero]
        have hhead : (natRender n).head? = some c := by rw [hsh]; rfl
        simp only [natRender, h0, if_false] at hhead
        rw [List.head?_reverse] at hhead
        have hmap : ((digsRev n n).map Nat.digitChar).getLast? =
            ((digsRev n n).getLast?).map Nat.digitChar := List.getLast?_map _ _
        rw [hmap] at hhead
        rcases hlast : (digsRev n n).getLast? with _ | d
        · rw [hlast] at hhead; exact absurd hhead (by simp)
        · rw [hlast] at hhead
          simp only [Option.map_some'] at hhead
          have hd10 : d < 10 := by
            have hmem : d ∈ digsRev n n := by
              rcases List.getLast?_eq_some_iff.mp hlast with ⟨l, hl⟩
              rw [hl]
              simp
            exact digsRev_lt_ten n n d hmem
          have hdne : d ≠ 0 := digsRev_getLast?_ne_zero n n h0 le_rfl d hlast
          have := digitChar_ne_zero_char hd10 hdne
          have hc : c = Nat.digitChar d := (Option.some_inj.mp hhead).symm
          rw [hc]
          exact this

theorem takeWhile_append_of_all {p : Char → Bool} {a b : List Char}
    (ha : ∀ c ∈ a, p c = true) (hb : ∀ c ∈ b.head?, p c = false) :
    (a ++ b).takeWhile p = a ∧ (a ++ b).dropWhile p = b := by
  induction a with
  | nil =>
    simp only [List.nil_append]
    cases b with
    | nil => exact ⟨rfl, rfl⟩
    | cons c bs =>
      have hc : p c = false := hb c (by simp)
      constructor
      · rw [List.takeWhile_cons, hc]
        simp
      · rw [List.dropWhile_cons, hc]
        simp
  | cons c as ih =>
    have hc : p c = true := ha c (List.mem_cons_self _ _)
    have has : ∀ x ∈ as, p x = true := fun x hx => ha x (List.mem_cons_of_mem _ hx)
    obtain ⟨h1, h2⟩ := ih has
    constructor
    · rw [List.cons_append, List.takeWhile_cons, hc]
      simp [h1]
    · rw [List.cons_append, List.dropWhile_cons, hc]
      simp [h2]

theorem natRender_all_digits_mem (n : Nat) : ∀ c ∈ natRender n, Char.isDigit c = true := by
  have := natRender_all_digits n
  rw [List.all_eq_true] at this
  exact this

theorem parseVer_core_append (M m p : Nat) (rest : List Char)
    (hrest : ∀ c ∈ rest.head?, Char.isDigit c = false) :
    parseVer (natRender M ++ ('.' : Char) ::
      (natRender m ++ ('.' : Char) :: (natRender p ++ rest))) = parseTail M m p rest := by
  have hdotm : ∀ (x : List Char), ∀ c ∈ (('.' : Char) :: x).head?, Char.isDigit c = false := by
    intro x c hc
    simp at hc
    subst hc
    decide
  obtain ⟨ht1, hd1⟩ := takeWhile_append_of_all (natRender_all_digits_mem M)
    (hdotm (natRender m ++ ('.' : Char) :: (natRender p ++ rest)))
  obtain ⟨ht2, hd2⟩ := takeWhile_append_of_all (natRender_all_digits_mem m)
    (hdotm (natRender p ++ rest))
  obtain ⟨ht3, hd3⟩ := takeWhile_append_of_all (natRender_all_digits_mem p) hrest
  simp only [parseVer]
  rw [ht1, hd1]
  simp only [checkNum_natRender, if_true]
  rw [ht2, hd2]
  simp only [checkNum_natRender, if_true]
  rw [ht3, hd3]
  simp only [checkNum_natRender, if_true, parseNatChars_natRender]

theorem parseVer_render (v : SemVer) (hv : v.Valid) : parseVer v.render = some v := by
  obtain ⟨hpre, hbuild⟩ := hv
  obtain ⟨M, m, p, pre, build⟩ := v
  simp only [SemVer.Valid] at hpre hbuild
  have hnil : parseVer (natRender M ++ ('.' : Char) ::
      (natRender m ++ ('.' : Char) :: natRender p)) = parseTail M m p [] := by
    have h := parseVer_core_append M m p [] (by intro c hc; simp at hc)
    simpa using h
  rcases hpre with hpnil | ⟨hpchk, hplus⟩
  · rcases hbuild with hbnil | hbchk
    · subst hpnil hbnil
      simp only [SemVer.render, List.isEmpty_nil, if_true, List.append_nil]
      rw [hnil]
      rfl
    · by_cases hbnil : build = []
      · subst hpnil hbnil
        simp only [SemVer.render, List.isEmpty_nil, if_true, List.append_nil]
        rw [hnil]
        rfl
      · subst hpnil
        have hbe : build.isEmpty = false := by simpa [List.isEmpty_iff] using hbnil
        simp only [SemVer.render, List.isEmpty_nil, if_true, List.append_nil, hbe,
          Bool.false_eq_true, if_false]
        rw [parseVer_core_append M m p (('+' : Char) :: build)
          (by intro c hc; simp at hc; subst hc; decide)]
        simp [parseTail, hbchk]
  · have hpnil : pre ≠ [] := by
      intro hcon
      rw [hcon] at hpchk
      exact absurd hpchk (by decide)
    have hpe : pre.isEmpty = false := by simpa [List.isEmpty_iff] using hpnil
    have hplusq : ∀ c ∈ pre, (fun c => !(c == ('+' : Char))) c = true := by
      intro c hc
      simp only [Bool.not_eq_true']
      rw [beq_eq_false_iff_ne]
      intro heq
      exact hplus (heq ▸ hc)
    have hdash : parseVer (natRender M ++ ('.' : Char) ::
        (natRender m ++ ('.' : Char) :: (natRender p ++ ('-' : Char) :: pre))) =
        parseTail M m p (('-' : Char) :: pre) :=
      parseVer_core_append M m p (('-' : Char) :: pre)
        (by intro c hc; simp at hc; subst hc; decide)
    rcases hbuild with hbnil | hbchk
    · subst hbnil
      simp only [SemVer.render, hpe, Bool.false_eq_true, if_false, List.isEmpty_nil, if_true,
        List.append_nil, List.append_assoc, List.cons_append]
      rw [hdash]
      simp only [parseTail]
      obtain ⟨hq1, hq2⟩ := takeWhile_append_of_all (b := ([] : List Char)) hplusq
        (by intro c hc; simp at hc)
      simp only [List.append_nil] at hq1 hq2
      rw [hq1, hq2]
      simp [hpchk]
    · by_cases hbnil : build = []
      · subst hbnil
        simp only [SemVer.render, hpe, Bool.false_eq_true, if_false, List.isEmpty_nil, if_true,
          List.append_nil, List.append_assoc, List.cons_append]
        rw [hdash]
        simp only [parseTail]
        obtain ⟨hq1, hq2⟩ := takeWhile_append_of_all (b := ([] : List Char)) hplusq
          (by intro c hc; simp at hc)
        simp only [List.append_nil] at hq1 hq2
        rw [hq1, hq2]
        simp [hpchk]
      · have hbe : build.isEmpty = false := by simpa [List.isEmpty_iff] using hbnil
        simp only [SemVer.render, hpe, hbe, Bool.false_eq_true, if_false,
          List.append_assoc, List.cons_append]
        rw [parseVer_core_append M m p (('-' : Char) :: (pre ++ ('+' : Char) :: build))
          (by intro c hc; simp at hc; subst hc; decide)]
        simp only [parseTail]
        obtain ⟨hq1, hq2⟩ := takeWhile_append_of_all (b := ('+' : Char) :: build) hplusq
          (by intro c hc; simp at hc; subst hc; decide)
        rw [hq1, hq2]
        simp [hpchk, hbchk]

/-! ## Helper lemmas about rfindStr, take and drop -/

theorem drop_len_append (b : List Char) (k : Nat) :
    ∀ a : List Char, (a ++ b).drop (a.length + k) = b.drop k := by
  intro a
  induction a with
  | nil => simp
  | cons c as ih =>
    simp only [List.cons_append, List.length_cons]
    rw [show as.length + 1 + k = (as.length + k) + 1 by omega]
    simp only [List.drop_succ_cons]
    exact ih

theorem take_len_append (b : List Char) (k : Nat) :
    ∀ a : List Char, (a ++ b).take (a.length + k) = a ++ b.take k := by
  intro a
  induction a with
  | nil => simp
  | cons c as ih =>
    simp only [List.cons_append, List.length_cons]
    rw [show as.length + 1 + k = (as.length + k) + 1 by omega]
    simpa using ih

theorem rfindStr_append_of_zero (pat : List Char) (b : List Char)
    (h : rfindStr pat b = some 0) :
    ∀ a : List Char, rfindStr pat (a ++ b) = some a.length := by
  intro a
  induction a with
  | nil => simpa using h
  | cons c as ih =>
    have hstep : rfindStr pat ((c :: as) ++ b) =
        (match rfindStr pat (as ++ b) with
         | some i => some (i + 1)
         | none => if isPre pat (c :: (as ++ b)) = true then some 0 else none) := rfl
    rw [hstep, ih]
    simp

theorem rfindStr_cons_none (pat : List Char) (c : Char) (l : List Char)
    (h1 : rfindStr pat l = none) (h2 : isPre pat (c :: l) = false) :
    rfindStr pat (c :: l) = none := by
  simp [rfindStr, h1, h2]

theorem rfindStr_cons_none_inv (pat : List Char) (c : Char) (l : List Char)
    (h : rfindStr pat (c :: l) = none) :
    rfindStr pat l = none ∧ isPre pat (c :: l) = false := by
  rcases hr : rfindStr pat l with _ | i
  · refine ⟨rfl, ?_⟩
    by_cases hp : isPre pat (c :: l) = true
    · rw [rfindStr, hr] at h
      simp [hp] at h
    · simpa using hp
  · rw [rfindStr, hr] at h
    simp at h

theorem rfindStr_single_none {c : Char} {l : List Char} (h : c ∉ l) :
    rfindStr [c] l = none := by
  induction l with
  | nil => rfl
  | cons d l' ih =>
    have hne : c ≠ d := fun heq => h (heq ▸ List.mem_cons_self _ _)
    have hni : c ∉ l' := fun hm => h (List.mem_cons_of_mem _ hm)
    apply rfindStr_cons_none _ _ _ (ih hni)
    simp [isPre]
    intro heq
    exact absurd heq hne

theorem rfindStr_single_last {c : Char} (a b : List Char) (h : c ∉ b) :
    rfindStr [c] (a ++ c :: b) = some a.length := by
  apply rfindStr_append_of_zero
  rw [rfindStr, rfindStr_single_none h]
  simp [isPre]

theorem rfindStr_two_snoc_none {x y z : Char} {l : List Char}
    (h : rfindStr [x, y] l = none) (hy : (y == z) = false) :
    rfindStr [x, y] (l ++ [z]) = none := by
  induction l with
  | nil =>
    simp only [List.nil_append]
    have h2 : isPre [x, y] [z] = false := by simp [isPre]
    exact rfindStr_cons_none [x, y] z [] rfl h2
  | cons c l' ih =>
    obtain ⟨h1, h2⟩ := rfindStr_cons_none_inv _ _ _ h
    simp only [List.cons_append]
    apply rfindStr_cons_none _ _ _ (ih h1)
    cases l' with
    | nil =>
      simp [isPre]
      intro _
      simpa using hy
    | cons c₂ l'' =>
      simp only [isPre, List.cons_append] at h2 ⊢
      exact h2

theorem rfindStr_head_occ {x y : Char} {rest : List Char} (hxy : (x == y) = false)
    (h : rfindStr [x, y] rest = none) : rfindStr [x, y] (x :: y :: rest) = some 0 := by
  have h1 : rfindStr [x, y] (y :: rest) = none := by
    apply rfindStr_cons_none _ _ _ h
    simp [isPre]
    intro heq
    rw [heq] at hxy
    simp at hxy
  rw [rfindStr, h1]
  simp [isPre]

theorem rfindStr_sep {x y : Char} (hxy : (x == y) = false) (a rest : List Char)
    (h : rfindStr [x, y] rest = none) :
    rfindStr [x, y] (a ++ x :: y :: rest) = some a.length :=
  rfindStr_append_of_zero _ _ (rfindStr_head_occ hxy h) a

theorem render_ne_nil (v : SemVer) : v.render ≠ [] := by
  simp only [SemVer.render]
  intro h
  obtain ⟨h1, _⟩ := List.append_eq_nil.mp h
  exact natRender_ne_nil _ h1

/-- Claim C4, amended: for every triple of a non-empty id, a non-empty
format containing no dot, and a semver version whose textual form does
not contain the dash-v marker, parsing the canonical textual form with
Bundle::from_filename succeeds and yields a Bundle with exactly that
id, version and format. (The two extra conditions are forced: a dotted
format shifts the format/version split, and a dash-v inside the
rendered version shifts the id/version split.) -/
theorem fromFilename_render (id fmt : List Char) (v : SemVer)
    (hid : id ≠ []) (hfmt : fmt ≠ []) (hdot : ('.' : Char) ∉ fmt)
    (hv : v.Valid) (hnv : rfindStr [('-' : Char), ('v' : Char)] v.render = none) :
    Bundle.fromFilename (Bundle.render ⟨id, v, fmt⟩) = .ok ⟨id, v, fmt⟩ := by
  have hxy : (('-' : Char) == ('v' : Char)) = false := by decide
  have e1 : Bundle.render ⟨id, v, fmt⟩ =
      (id ++ ('-' : Char) :: ('v' : Char) :: v.render) ++ ('.' : Char) :: fmt := by
    simp [Bundle.render]
  have hfind1 : rfindStr [('.' : Char)]
      ((id ++ ('-' : Char) :: ('v' : Char) :: v.render) ++ ('.' : Char) :: fmt) =
      some (id ++ ('-' : Char) :: ('v' : Char) :: v.render).length :=
    rfindStr_single_last _ _ hdot
  have hdrop1 : ((id ++ ('-' : Char) :: ('v' : Char) :: v.render) ++ ('.' : Char) :: fmt).drop
      ((id ++ ('-' : Char) :: ('v' : Char) :: v.render).length + 1) = fmt := by
    rw [drop_len_append]
    simp
  have htake1 : ((id ++ ('-' : Char) :: ('v' : Char) :: v.render) ++ ('.' : Char) :: fmt).take
      ((id ++ ('-' : Char) :: ('v' : Char) :: v.render).length + 1) =
      (id ++ ('-' : Char) :: ('v' : Char) :: v.render) ++ [('.' : Char)] := by
    rw [take_len_append]
    simp
  have hnvdot : rfindStr [('-' : Char), ('v' : Char)] (v.render ++ [('.' : Char)]) = none :=
    rfindStr_two_snoc_none hnv (by decide)
  have e2 : (id ++ ('-' : Char) :: ('v' : Char) :: v.render) ++ [('.' : Char)] =
      id ++ ('-' : Char) :: ('v' : Char) :: (v.render ++ [('.' : Char)]) := by simp
  have hfind2 : rfindStr [('-' : Char), ('v' : Char)]
      ((id ++ ('-' : Char) :: ('v' : Char) :: v.render) ++ [('.' : Char)]) = some id.length := by
    rw [e2]
    exact rfindStr_sep hxy id _ hnvdot
  have hlen : ((id ++ ('-' : Char) :: ('v' : Char) :: v.render) ++ [('.' : Char)]).length - 1 =
      (id ++ ('-' : Char) :: ('v' : Char) :: v.render).length := by
    simp
  have hver : (id ++ ('-' : Char) :: ('v' : Char) :: v.render).drop (id.length + 2) = v.render := by
    rw [drop_len_append]
    simp
  have htake2 : ((id ++ ('-' : Char) :: ('v' : Char) :: v.render) ++ [('.' : Char)]).take
      (id.length + 2) = id ++ [('-' : Char), ('v' : Char)] := by
    rw [show (id ++ ('-' : Char) :: ('v' : Char) :: v.render) ++ [('.' : Char)] =
      id ++ ('-' : Char) :: ('v' : Char) :: (v.render ++ [('.' : Char)]) by simp]
    rw [take_len_append]
    simp
  have e3 : (id ++ [('-' : Char), ('v' : Char)]) ++ [('.' : Char)] =
      id ++ ('-' : Char) :: ('v' : Char) :: [('.' : Char)] := by simp
  have hfind3 : rfindStr [('-' : Char), ('v' : Char)]
      ((id ++ [('-' : Char), ('v' : Char)]) ++ [('.' : Char)]) = some id.length := by
    rw [e3]
    exact rfindStr_sep hxy id _ (by decide)
  have hidtake : ((id ++ [('-' : Char), ('v' : Char)]) ++ [('.' : Char)]).take id.length = id := by
    rw [List.append_assoc, List.take_left]
  have hfe : fmt.isEmpty = false := by simpa [List.isEmpty_iff] using hfmt
  have hve : (v.render).isEmpty = false := by simpa [List.isEmpty_iff] using render_ne_nil v
  have hie : id.isEmpty = false := by simpa [List.isEmpty_iff] using hid
  rw [e1]
  simp only [Bundle.fromFilename, hfind1, hdrop1, htake1, hfind2, hlen, List.take_left,
    List.drop_left, hver, htake2, hfind3, hidtake, hfe, hve, hie, Bool.false_eq_true,
    if_false, parseVer_render v hv]

/-! ## Claim theorems -/

/-- Claim C1: dependency resolution in load_depends is claimed to be
unaffected by plugins whose id differs from the Depend's id. Evaluated
on the code: with a-1.0.0 registered and matching dependA, the mere
presence of the unrelated plugin b-1.5.0 (different id, version inside
the range) makes load_plugin of c fail with NotFoundDependencies, while
without b the same load succeeds; so a different-id plugin does change
to which plugin (and whether) the Depend resolves. -/
theorem c1_load_depends_cross_id_interference :
    loadPluginFuel 3 stC1 2 =
      some (stC1, some (LoadPluginError.NotFoundDependencies [dependA])) ∧
    (loadPluginFuel 3 stC1noB 1).map (fun r => r.2) = some none ∧
    dependMatchesBundle dependA plugA.bundle = true ∧
    dependA.id ≠ plugB15.bundle.id := by
  refine ⟨rfl, rfl, rfl, by decide⟩

/-- Claim C2: the request coverage check. check_requests reuses one
iterator over the plugin's request table across all engine requests, so
with requests registered in order a, b and the table in order b, a the
code reports b as missing although the table covers both names:
load_plugin fails with RequestsNotFound of b and resets is_load, where
the claim demands Ok. -/
theorem c2_check_requests_order_sensitive :
    (loadPluginFuel 2 stC2 0).map (fun r => r.2) =
      some (some (LoadPluginError.RequestsNotFound ["b"])) ∧
    (loadPluginFuel 2 stC2 0).map (fun r => (r.1.plugins.getD 0 default).isLoad) =
      some false ∧
    (stC2.requests.all fun r => plugD.loadHookReqs.any fun f => f.name == r.name) = true := by
  refine ⟨rfl, rfl, by decide⟩

/-- Claim C3: the dependents check of unload_plugin. The superseding
clause in the code compares against every plugin of any id and any load
state: unloading a-1.0.0 succeeds although its loaded dependent b still
has a as best same-id match, both when the only higher in-range version
is the unrelated loaded plugin c-1.5.0 and when it is the same-id but
unloaded a-1.9.0; the claim demands CurrentlyUsesDepend in both
situations. -/
theorem c3_unload_dependents_check_divergence :
    (unloadPlugin psC3 0).2 = none ∧
    (unloadPlugin psC3b 0).2 = none ∧
    plugBL.isLoad = true ∧
    dependMatchesBundle dependA plugAL.bundle = true ∧
    (psC3.any fun p => p.isLoad && p.bundle.id == plugAL.bundle.id &&
      SemVer.ltb plugAL.bundle.version p.bundle.version && dependA.version p.bundle.version)
      = false ∧
    (psC3b.any fun p => p.isLoad && p.bundle.id == plugAL.bundle.id &&
      SemVer.ltb plugAL.bundle.version p.bundle.version && dependA.version p.bundle.version)
      = false := by
  refine ⟨rfl, rfl, rfl, rfl, rfl, rfl⟩

/-- Claim C7: Plugin::register_function is claimed (also by its own doc
comment) to fail with AlreadyExists whenever a same-named function is
registered, regardless of signatures. The code compares with the dyn
Function PartialEq (name, inputs and output): registering a second
function named f with different inputs succeeds and leaves two
same-named registry entries. -/
theorem c7_register_function_same_name_divergence :
    ((registerFunction (setRegistry (default : PluginM Unit Unit)
        [⟨"f", [⟨"a", VariableType.Int (VariableIntType.Signed VariableSignedIntType.I32)⟩],
          none, fun _ => ()⟩])
        ⟨"f", [⟨"x", VariableType.String⟩], none, fun _ => ()⟩).2 = none) ∧
    ((registerFunction (setRegistry (default : PluginM Unit Unit)
        [⟨"f", [⟨"a", VariableType.Int (VariableIntType.Signed VariableSignedIntType.I32)⟩],
          none, fun _ => ()⟩])
        ⟨"f", [⟨"x", VariableType.String⟩], none, fun _ => ()⟩).1.registry.countP
      (fun g => g.name == "f") = 2) := by
  refine ⟨rfl, rfl⟩

/-- Claim C5, counterexample: a Request input declared with the
unspecified type code Let (the Any of the spec) is checked with the
derived structural equality of VariableType, so it is NOT satisfied by
a concrete String input: the registration fails with
ArgumentsIncorrectly, contradicting the claim that Any matches any
concrete variant. -/
theorem c5_any_counterexample :
    (registerRequest [⟨"q", [VariableType.Let], none⟩] (default : PluginM Unit Unit)
      ⟨"q", [⟨"x", VariableType.String⟩], none, fun _ => ()⟩).2 =
      some RegisterRequestError.ArgumentsIncorrectly := rfl

/-- Claim C8, counterexample: register_request performs no
duplicate-name check: two successful registrations of same-named
functions leave two same-named entries in the plugin's request table,
refuting the claimed at-most-one-entry-per-name invariant. -/
theorem c8_duplicate_requests_counterexample :
    ((registerRequest [(⟨"r", [], none⟩ : Request)]
        ((registerRequest [(⟨"r", [], none⟩ : Request)] (default : PluginM Unit Unit)
          ⟨"r", [], none, fun _ => ()⟩).1)
        ⟨"r", [], none, fun _ => ()⟩).2 = none) ∧
    (((registerRequest [(⟨"r", [], none⟩ : Request)]
        ((registerRequest [(⟨"r", [], none⟩ : Request)] (default : PluginM Unit Unit)
          ⟨"r", [], none, fun _ => ()⟩).1)
        ⟨"r", [], none, fun _ => ()⟩).1).requests.countP
      (fun g => g.name == "r") = 2) := by
  refine ⟨rfl, rfl⟩

/-- Claim C4, counterexample: the triple with id a, version 1.0.0 and
the non-empty format b.c renders to a-v1.0.0.b.c, whose parse takes c
as the format and then fails to parse 1.0.0.b as a version, so
from_filename does not return the original bundle for every valid
triple. -/
theorem c4_roundtrip_counterexample :
    ("a".toList ≠ [] ∧ "b.c".toList ≠ [] ∧ SemVer.Valid (verOf 1 0 0)) ∧
    Bundle.fromFilename (Bundle.render ⟨"a".toList, verOf 1 0 0, "b.c".toList⟩) =
      Except.error BundleFromError.ParseVersion ∧
    Bundle.fromFilename (Bundle.render ⟨"a".toList, verOf 1 0 0, "b.c".toList⟩) ≠
      Except.ok ⟨"a".toList, verOf 1 0 0, "b.c".toList⟩ := by
  refine ⟨⟨by decide, by decide, ?_⟩, by decide, by decide⟩
  unfold SemVer.Valid verOf
  decide

/-- Witness for fromFilename_render at a concrete triple. -/
theorem fromFilename_render_witness :
    Bundle.fromFilename (Bundle.render ⟨"my".toList, ⟨1, 2, 3, [], []⟩, "lua".toList⟩) =
      Except.ok ⟨"my".toList, ⟨1, 2, 3, [], []⟩, "lua".toList⟩ :=
  fromFilename_render "my".toList "lua".toList ⟨1, 2, 3, [], []⟩
    (by decide) (by decide) (by decide) ⟨Or.inl rfl, Or.inl rfl⟩ (by decide)

theorem setLoad_bundle {V O : Type} (p : PluginM V O) (b : Bool) :
    (setLoad p b).bundle = p.bundle := rfl

theorem setLoad_requests {V O : Type} (p : PluginM V O) (b : Bool) :
    (setLoad p b).requests = p.requests := rfl

theorem collectResults_error {O : Type} (l : List (Except PluginCallRequestError O))
    (h : Except.error PluginCallRequestError.NotFound ∈ l) :
    collectResults l = Except.error PluginCallRequestError.NotFound := by
  induction l with
  | nil => cases h
  | cons x rest ih =>
    rcases x with e | v
    · cases e
      rfl
    · rcases List.mem_cons.mp h with h1 | h2
      · exact absurd h1 (by simp)
      · simp only [collectResults, ih h2]
        rfl

/-- Claim C5, amended: during the register_request signature check, a
Request input declared with the Any/Let type code is satisfied only by
a Function input declared with that exact type code; when every input
of the provided Function has a concrete type, the registration fails
with ArgumentsIncorrectly. -/
theorem c5_any_amended {V O : Type} (requests : List Request) (plugin : PluginM V O)
    (f : Func V O) (req : Request)
    (h1 : requests.find? (fun r => r.name == f.name) = some req)
    (h2 : VariableType.Let ∈ req.inputs)
    (h3 : ∀ a ∈ f.inputs, a.ty ≠ VariableType.Let) :
    (registerRequest requests plugin f).2 = some RegisterRequestError.ArgumentsIncorrectly := by
  have hall : req.inputs.all
      (fun input => f.inputs.any (fun arg => input == arg.ty)) = false := by
    rw [List.all_eq_false]
    refine ⟨VariableType.Let, h2, ?_⟩
    simp only [Bool.not_eq_true, List.any_eq_false, beq_iff_eq]
    intro arg harg heq
    exact h3 arg harg heq.symm
  simp only [registerRequest, h1, hall, Bool.false_eq_true, if_false]

/-- Witness for c5_any_amended at a concrete request and function. -/
theorem c5_any_amended_witness :
    (registerRequest [(⟨"w", [VariableType.Let], none⟩ : Request)]
      (default : PluginM Unit Unit) ⟨"w", [⟨"x", VariableType.Bool⟩], none, fun _ => ()⟩).2 =
      some RegisterRequestError.ArgumentsIncorrectly :=
  c5_any_amended [(⟨"w", [VariableType.Let], none⟩ : Request)] (default : PluginM Unit Unit)
    ⟨"w", [⟨"x", VariableType.Bool⟩], none, fun _ => ()⟩ ⟨"w", [VariableType.Let], none⟩
    rfl (by decide) (by decide)

/-- Claim C6: par_call_request returns exactly the same result as
call_request on every loader state, request name and argument list:
both filter the plugin list by the same not-superseded condition, both
pick the first same-named function of each surviving plugin's request
table, and both collect the per-plugin results in plugin-list order. -/
theorem c6_par_call_request_eq {V O : Type} (plugins : List (PluginM V O)) (name : String)
    (args : List V) : parCallRequest plugins name args = callRequest plugins name args := by
  simp only [parCallRequest, callRequest, List.map_filterMap]
  congr 1
  apply List.filterMap_congr
  intro plugin _
  by_cases h : plugins.any (fun pl =>
      pl.bundle.id == plugin.bundle.id && SemVer.ltb plugin.bundle.version pl.bundle.version)
  · simp [h]
  · simp [h, pluginCallRequest]

/-- Claim C8, amended: every entry of a plugin's request table that was
admitted by register_request is compatible with some registered engine
Request of its name (the signature check passed); this invariant is
preserved by every successful register_request call, but the table may
hold several same-named entries since no duplicate check is made. -/
theorem c8_requests_invariant {V O : Type} (requests : List Request) (plugin : PluginM V O)
    (f : Func V O)
    (h : ∀ g ∈ plugin.requests, requestCompatible requests g)
    (hs : (registerRequest requests plugin f).2 = none) :
    ∀ g ∈ (registerRequest requests plugin f).1.requests, requestCompatible requests g := by
  rcases hfind : requests.find? (fun req => req.name == f.name) with _ | req
  · rw [registerRequest, hfind] at hs
    cases hs
  · by_cases hin : req.inputs.all (fun input => f.inputs.any (fun arg => input == arg.ty))
    · by_cases hout : req.output == f.output.map Arg.ty
      · simp only [registerRequest, hfind, hin, hout, if_true]
        intro g hg
        rcases List.mem_append.mp hg with hold | hnew
        · exact h g hold
        · have hgf : g = f := by simpa using hnew
          subst hgf
          refine ⟨req, List.mem_of_find?_eq_some hfind, ?_, ?_⟩
          · have := List.find?_some hfind
            simpa [beq_iff_eq] using this
          · simp [sigChecks, hin, hout]
      · rw [registerRequest, hfind] at hs
        simp [hin, hout] at hs
    · rw [registerRequest, hfind] at hs
      simp [hin] at hs

/-- Witness for c8_requests_invariant at a concrete registration: the
function just registered is compatible with the engine request list. -/
theorem c8_requests_invariant_witness :
    requestCompatible [(⟨"w", [], none⟩ : Request)]
      (⟨"w", [], none, fun _ => ()⟩ : Func Unit Unit) :=
  c8_requests_invariant [(⟨"w", [], none⟩ : Request)] (default : PluginM Unit Unit)
    (⟨"w", [], none, fun _ => ()⟩ : Func Unit Unit)
    (fun g hg => absurd hg (List.not_mem_nil g)) rfl
    (⟨"w", [], none, fun _ => ()⟩ : Func Unit Unit)
    (List.mem_singleton_self _)

/-- Claim C9: a successful unload_plugin only clears the subject's
is_load flag: the resulting plugin list is the original with the
subject record replaced by itself with is_load false (its request
table, private registry, PluginInfo and manager reference survive, and
every other record is untouched); moreover register_request appends to
the surviving table, so a later load hook stacks on top of it. -/
theorem c9_unload_frame {V O : Type} [Inhabited O] (ps : List (PluginM V O)) (i : Nat)
    (rs : List Request) (p : PluginM V O) (f : Func V O)
    (h : (unloadPlugin ps i).2 = none) :
    (unloadPlugin ps i).1 = ps.set i (setLoad (ps.getD i default) false) ∧
    ((registerRequest rs p f).2 = none →
      (registerRequest rs p f).1.requests = p.requests ++ [f]) := by
  constructor
  · simp only [unloadPlugin, forcedUnloadPlugin, List.getD] at h ⊢
    by_cases hl : (ps[i]?.getD default).isLoad
    · rcases hfind : ps.find? (fun plug =>
          plug.isLoad && dependsAsBestMatch ps (ps[i]?.getD default).bundle plug) with _ | plug
      · by_cases hok : (ps[i]?.getD default).unloadHookOk
        · simp [hl, hfind, hok]
        · simp [hl, hfind, hok] at h
      · simp [hl, hfind] at h
    · simp [hl]
  · intro hs
    rcases hfind : rs.find? (fun req => req.name == f.name) with _ | req
    · rw [registerRequest, hfind] at hs
      cases hs
    · by_cases hin : req.inputs.all (fun input => f.inputs.any (fun arg => input == arg.ty))
      · by_cases hout : req.output == f.output.map Arg.ty
        · simp [registerRequest, hfind, hin, hout, setReqTable]
        · rw [registerRequest, hfind] at hs
          simp [hin, hout] at hs
      · rw [registerRequest, hfind] at hs
        simp [hin] at hs

/-- Witness for c9_unload_frame at a concrete loaded singleton state. -/
theorem c9_unload_frame_witness :
    (unloadPlugin [plugAL] 0).1 =
      [plugAL].set 0 (setLoad ([plugAL].getD 0 default) false) ∧
    ((registerRequest [reqA] (default : PluginM Unit Unit) funcA).2 = none →
      (registerRequest [reqA] (default : PluginM Unit Unit) funcA).1.requests =
        (default : PluginM Unit Unit).requests ++ [funcA]) :=
  c9_unload_frame [plugAL] 0 [reqA] (default : PluginM Unit Unit) funcA rfl

/-- Claim C10: call_request selects plugins solely by the
highest-version-per-id criterion: the is_load flags are never
consulted (rewriting them arbitrarily leaves the result unchanged),
and a plugin with an empty request table that is not superseded (for
instance one that is registered but never loaded) forces the whole
call to return the NotFound error. -/
theorem c10_call_request_ignores_load {V O : Type} (plugins : List (PluginM V O))
    (name : String) (args : List V) (p : PluginM V O)
    (hp : p ∈ plugins) (hreq : p.requests = [])
    (hsup : plugins.any (fun pl =>
      pl.bundle.id == p.bundle.id && SemVer.ltb p.bundle.version pl.bundle.version) = false) :
    (∀ g : PluginM V O → Bool,
      callRequest (plugins.map (fun q => setLoad q (g q))) name args =
        callRequest plugins name args) ∧
    callRequest plugins name args = Except.error PluginCallRequestError.NotFound := by
  constructor
  · intro g
    simp only [callRequest, List.filterMap_map, List.any_map]
    congr 1
  · apply collectResults_error
    apply List.mem_filterMap.mpr
    refine ⟨p, hp, ?_⟩
    rw [hsup]
    simp [pluginCallRequest, hreq]

/-- Witness for c10_call_request_ignores_load at a concrete state with
one registered, never loaded plugin. -/
theorem c10_call_request_ignores_load_witness :
    (∀ g : PluginM Unit Unit → Bool,
      callRequest ([plugA].map (fun q => setLoad q (g q))) "m" [] =
        callRequest [plugA] "m" []) ∧
    callRequest [plugA] "m" [] = Except.error PluginCallRequestError.NotFound :=
  c10_call_request_ignores_load [plugA] "m" [] plugA (by simp) rfl rfl

end Plux
